import Mathlib

/-!
Shallow embedding of the EagleEyeTester diagnostic client
(source: src/eagle_eye_tester.py).

The network is modelled as explicit input data: an `AuthWorld` carries the
HTTP status codes of the authenticate and authorize responses together with
the cookie jar of the authorize response; a playback attempt carries the
HTTP status of the GET response and the sequence of chunks the stream will
yield before it either ends cleanly or raises a mid-stream I/O error.
Wall-clock durations are carried as inputs as well: each chunk carries the
integer millisecond duration the code would compute for it, and each
latency sample carries the exact elapsed seconds as a rational number
(Python float timestamps are modelled as exact rationals; Python int()
is modelled as truncation toward zero).

Observable behaviour (prints, sleeps, resource acquisition and release) is
recorded in an explicit trace of `Event`s, and exceptions are modelled with
`Except`.
-/

namespace EagleEye

/-- The number of bytes per read when streaming from a camera. -/
def CHUNK_SIZE : Nat := 1024 * 10

/-- The threshold for which to consider a read of bytes slow. -/
def SLOW_FETCH_THRESHOLD_MS : Nat := 5000

/-- The number of seconds between runs if not specified in the config. -/
def DEFAULT_DELAY_BETWEEN_RUNS_SECONDS : Nat := 60

/-- Python int() applied to an exact rational: truncation toward zero. -/
def pyInt (q : ℚ) : Int := if 0 ≤ q then ⌊q⌋ else ⌈q⌉

/-- Exceptions raised by the tester. The source raises bare `Exception`
with formatted messages; we record the data those messages carry. -/
inductive PyError where
  | authenticationFailed (code : Nat)
  | authorizationFailed (code : Nat)
  | playbackFailed (camera : String) (code : Nat)
  | transportError
  deriving DecidableEq

deriving instance DecidableEq for Except

/-- Observable events: prints, sleeps, and stream resource operations. -/
inductive Event where
  | couldNotGetAuthKey
  | backoffSleep (seconds : Nat)
  | playbackAttempt (camera : String)
  | streamOpen (camera : String)
  | slowChunk (seq : Nat) (durationMs : Nat)
  | progress (totalBytes : Nat)
  | sessionSummary (totalBytes : Nat)
  | streamClose
  | latencyRead (camera : String)
  | sleepBetweenRuns (seconds : Nat)
  deriving DecidableEq

/-- The authenticate and authorize responses for one credential exchange. -/
structure AuthWorld where
  authenticateStatus : Nat
  authorizeStatus : Nat
  authorizeCookies : List (String × String)
  deriving DecidableEq

/-- requests cookie jar lookup: `cookies.get(name)` returns the value of
the named cookie, or None when it is absent. -/
def cookiesGet (cookies : List (String × String)) (name : String) : Option String :=
  (cookies.find? (fun p => p.1 == name)).map (fun p => p.2)

/-- `EagleEyeTester.get_auth_key`: POST authenticate, raise on non-200,
POST authorize, raise on non-200, return `cookies.get("auth_key")`. -/
def get_auth_key (w : AuthWorld) : Except PyError (Option String) :=
  if w.authenticateStatus ≠ 200 then
    Except.error (PyError.authenticationFailed w.authenticateStatus)
  else if w.authorizeStatus ≠ 200 then
    Except.error (PyError.authorizationFailed w.authorizeStatus)
  else
    Except.ok (cookiesGet w.authorizeCookies "auth_key")

/-- One chunk yielded by `iter_content`: its byte count and the integer
millisecond duration `int((fetch_end - fetch_start) * 1000)` the code
computes for it. -/
structure Chunk where
  size : Nat
  durationMs : Nat
  deriving DecidableEq

/-- A streamed playback response body: the chunks `iter_content` yields,
and whether iteration then raises a mid-stream I/O error instead of
ending cleanly. -/
structure Stream where
  chunks : List Chunk
  midStreamError : Bool
  deriving DecidableEq

/-- `EagleEyeTester.make_playback_request`: GET the playback URL with
stream=True, raise on non-200 status, otherwise return the (never-None)
response. The Python surface type is `Option Stream` so that the
None-check in the caller can be stated. -/
def make_playback_request (camera : String) (status : Nat) (s : Stream) :
    Except PyError (Option Stream) :=
  if status ≠ 200 then
    Except.error (PyError.playbackFailed camera status)
  else
    Except.ok (some s)

/-- Per-chunk state of the `for i in playback_stream.iter_content(...)`
loop: the sequence number (`counter`, starting at 1) and the running
byte total (`total_size`) after the chunk is added. -/
structure ChunkRecord where
  seq : Nat
  size : Nat
  durationMs : Nat
  totalAfter : Nat
  deriving DecidableEq

/-- Unfolding of the chunk loop: `counter` starts at the first argument,
`total_size` at the second; each chunk adds its size to the total and
increments the counter. -/
def chunkRecords : List Chunk → Nat → Nat → List ChunkRecord
  | [], _, _ => []
  | c :: rest, counter, total =>
      { seq := counter, size := c.size, durationMs := c.durationMs,
        totalAfter := total + c.size } :: chunkRecords rest (counter + 1) (total + c.size)

/-- The prints the loop body emits for one chunk: a slow-chunk line when
`fetch_duration >= SLOW_FETCH_THRESHOLD_MS`, and a progress line when
`counter % 100 == 0`. -/
def recordEvents (r : ChunkRecord) : List Event :=
  (if SLOW_FETCH_THRESHOLD_MS ≤ r.durationMs then [Event.slowChunk r.seq r.durationMs] else [])
    ++ (if r.seq % 100 = 0 then [Event.progress r.totalAfter] else [])

/-- All prints of one chunk-consumption loop over a stream body. -/
def sessionEvents (chunks : List Chunk) : List Event :=
  (chunkRecords chunks 1 0).flatMap recordEvents

/-- The final value of `total_size` after consuming the chunks. -/
def sessionFinalTotal (chunks : List Chunk) : Nat :=
  chunks.foldl (fun total c => total + c.size) 0

/-- The inputs one iteration of the `while True` loop in
`stream_repeatedly` consumes: the credential-exchange responses and the
playback response for that iteration. -/
structure IterWorld where
  auth : AuthWorld
  playbackStatus : Nat
  chunks : List Chunk
  midStreamError : Bool
  deriving DecidableEq

/-- How a bounded prefix of the `while True` loop ends. -/
inductive Outcome where
  | finished
  | raised (e : PyError)
  | running
  deriving DecidableEq

/-- `EagleEyeTester.stream_repeatedly`: the unbounded loop, driven by the
list of per-iteration worlds (running out of worlds leaves the loop
`running`). Each iteration: get_auth_key (an exception propagates);
return after printing when the key is None; make_playback_request (an
exception propagates); the None branch sleeps `1 * 2 ** failed_iterations`
seconds and retries; otherwise reset `failed_iterations`, consume the
stream (a mid-stream I/O error propagates, skipping the summary print and
the close), else print the summary, close the stream and loop. -/
def stream_repeatedly (camera : String) :
    List IterWorld → Nat → List Event × Outcome
  | [], _ => ([], Outcome.running)
  | w :: rest, failed_iterations =>
    match get_auth_key w.auth with
    | Except.error e => ([], Outcome.raised e)
    | Except.ok none => ([Event.couldNotGetAuthKey], Outcome.finished)
    | Except.ok (some _) =>
      match make_playback_request camera w.playbackStatus
          { chunks := w.chunks, midStreamError := w.midStreamError } with
      | Except.error e => ([Event.playbackAttempt camera], Outcome.raised e)
      | Except.ok none =>
        let sleep_duration := 1 * 2 ^ failed_iterations
        let r := stream_repeatedly camera rest (failed_iterations + 1)
        (Event.playbackAttempt camera :: Event.backoffSleep sleep_duration :: r.1, r.2)
      | Except.ok (some s) =>
        if s.midStreamError then
          (Event.playbackAttempt camera :: Event.streamOpen camera :: sessionEvents s.chunks,
            Outcome.raised PyError.transportError)
        else
          let r := stream_repeatedly camera rest 0
          (Event.playbackAttempt camera :: Event.streamOpen camera ::
            (sessionEvents s.chunks ++
              Event.sessionSummary (sessionFinalTotal s.chunks) :: Event.streamClose :: r.1),
            r.2)

/-- Python statistics.median: sort, take the middle element for odd
length, the mean of the two middle elements for even length. -/
def median (l : List ℚ) : ℚ :=
  let s := List.insertionSort (· ≤ ·) l
  let n := s.length
  if n % 2 = 1 then s.getD (n / 2) 0
  else (s.getD (n / 2 - 1) 0 + s.getD (n / 2) 0) / 2

/-- The per-camera figures printed at the end of `test_latency`. -/
structure Report where
  camera : String
  minMs : Int
  avgMs : Int
  medianMs : Int
  maxMs : Int
  deriving DecidableEq

/-- The report computation for one camera: sort the load times in place,
then `min = int(l[0]*1000)`, `max = int(l[-1]*1000)`,
`median = int(statistics.median(l)*1000)`,
`avg = int(sum(l, 0)*1000/runs)`. -/
def reportFor (runs : Nat) (camera : String) (times : List ℚ) : Report :=
  let sorted := List.insertionSort (· ≤ ·) times
  { camera := camera
    minMs := pyInt (sorted.getD 0 0 * 1000)
    maxMs := pyInt ((sorted.getLast?).getD 0 * 1000)
    medianMs := pyInt (median sorted * 1000)
    avgMs := pyInt (sorted.sum * 1000 / (runs : ℚ)) }

/-- The inputs `test_latency` consumes: the credential-exchange responses,
the camera registry in iteration order, the configured delay, and for
each (round, camera) the elapsed seconds of the sample and the HTTP
status of the playback response. -/
structure LatencyWorld where
  auth : AuthWorld
  cameras : List String
  delay_between_runs_seconds : Nat
  lat : Nat → String → ℚ
  openStatus : Nat → String → Nat

/-- Appending a sample to `load_times[camera]` (the registry keys are
unique, so exactly the entry for `camera` changes). -/
def appendSample (lt : List (String × List ℚ)) (camera : String) (q : ℚ) :
    List (String × List ℚ) :=
  lt.map (fun p => if p.1 = camera then (p.1, p.2 ++ [q]) else p)

/-- The inner `for camera in self.config['cameras']` loop of round `i`:
each camera gets a playback request (a raise aborts the whole run), a
1-byte read, a close, and its elapsed time appended. -/
def runRound (w : LatencyWorld) (i : Nat) :
    List String → List (String × List ℚ) →
      List Event × Except PyError (List (String × List ℚ))
  | [], lt => ([], Except.ok lt)
  | camera :: rest, lt =>
    if w.openStatus i camera ≠ 200 then
      ([Event.playbackAttempt camera],
        Except.error (PyError.playbackFailed camera (w.openStatus i camera)))
    else
      let r := runRound w i rest (appendSample lt camera (w.lat i camera))
      (Event.playbackAttempt camera :: Event.streamOpen camera ::
        Event.latencyRead camera :: Event.streamClose :: r.1, r.2)

/-- The outer `for i in range(runs)` loop: sleep between runs when
`i > 0`, then run the round. -/
def runRounds (w : LatencyWorld) :
    List Nat → List (String × List ℚ) →
      List Event × Except PyError (List (String × List ℚ))
  | [], lt => ([], Except.ok lt)
  | i :: rest, lt =>
    let sleepEvents : List Event :=
      if 0 < i then [Event.sleepBetweenRuns w.delay_between_runs_seconds] else []
    match runRound w i w.cameras lt with
    | (events, Except.error e) => (sleepEvents ++ events, Except.error e)
    | (events, Except.ok lt2) =>
      let r := runRounds w rest lt2
      (sleepEvents ++ events ++ r.1, r.2)

/-- `EagleEyeTester.test_latency`: get_auth_key once (no None check in the
source), initialise `load_times` with an empty list per camera, run the
rounds, then produce a report per camera in registry order. -/
def test_latency (w : LatencyWorld) (runs : Nat) :
    List Event × Except PyError (List Report) :=
  match get_auth_key w.auth with
  | Except.error e => ([], Except.error e)
  | Except.ok _ =>
    let init := w.cameras.map (fun c => (c, ([] : List ℚ)))
    match runRounds w (List.range runs) init with
    | (events, Except.error e) => (events, Except.error e)
    | (events, Except.ok lt) =>
      (events, Except.ok (lt.map (fun p => reportFor runs p.1 p.2)))

/-- Event classifiers used to state trace properties. -/
def isBackoffSleep : Event → Bool
  | Event.backoffSleep _ => true
  | _ => false

def isAttempt : Event → Bool
  | Event.playbackAttempt _ => true
  | _ => false

def isStreamOpen : Event → Bool
  | Event.streamOpen _ => true
  | _ => false

def isStreamClose : Event → Bool
  | Event.streamClose => true
  | _ => false

/-- An iteration world in which everything succeeds: both credential
calls return 200 with the auth_key cookie present, the playback open
returns 200, and the stream ends cleanly. -/
def CleanIter (w : IterWorld) : Prop :=
  w.auth.authenticateStatus = 200 ∧ w.auth.authorizeStatus = 200 ∧
    (cookiesGet w.auth.authorizeCookies "auth_key").isSome = true ∧
    w.playbackStatus = 200 ∧ w.midStreamError = false

instance : DecidablePred CleanIter := fun w => by
  unfold CleanIter; infer_instance

/-! Helper lemmas about the chunk-consumption loop. -/

/-- Every print of the chunk loop body is a slow-chunk line or a progress line. -/
theorem mem_recordEvents {e : Event} {r : ChunkRecord} (h : e ∈ recordEvents r) :
    e = Event.slowChunk r.seq r.durationMs ∨ e = Event.progress r.totalAfter := by
  unfold recordEvents at h
  rcases List.mem_append.mp h with h | h
  · by_cases h1 : SLOW_FETCH_THRESHOLD_MS ≤ r.durationMs
    · rw [if_pos h1] at h
      exact Or.inl (List.mem_singleton.mp h)
    · rw [if_neg h1] at h
      exact absurd h (List.not_mem_nil e)
  · by_cases h2 : r.seq % 100 = 0
    · rw [if_pos h2] at h
      exact Or.inr (List.mem_singleton.mp h)
    · rw [if_neg h2] at h
      exact absurd h (List.not_mem_nil e)


/-- Membership of a slow-chunk line among the prints for one chunk. -/
theorem slowChunk_mem_recordEvents (r : ChunkRecord) (s d : Nat) :
    (Event.slowChunk s d ∈ recordEvents r)
      ↔ (s = r.seq ∧ d = r.durationMs ∧ SLOW_FETCH_THRESHOLD_MS ≤ r.durationMs) := by
  unfold recordEvents
  by_cases h1 : SLOW_FETCH_THRESHOLD_MS ≤ r.durationMs <;>
    by_cases h2 : r.seq % 100 = 0 <;> simp [h1, h2]

/-- Every print of a whole session is a slow-chunk line or a progress line. -/
theorem mem_sessionEvents {e : Event} {chunks : List Chunk} (h : e ∈ sessionEvents chunks) :
    (∃ s d, e = Event.slowChunk s d) ∨ (∃ t, e = Event.progress t) := by
  unfold sessionEvents at h
  rcases List.mem_flatMap.mp h with ⟨r, _, hr⟩
  rcases mem_recordEvents hr with h1 | h1
  · exact Or.inl ⟨r.seq, r.durationMs, h1⟩
  · exact Or.inr ⟨r.totalAfter, h1⟩

/-- A predicate that rejects slow-chunk and progress lines filters a session
    trace to nothing. -/
theorem sessionEvents_filter_eq_nil (p : Event → Bool)
    (h1 : ∀ s d, p (Event.slowChunk s d) = false)
    (h2 : ∀ t, p (Event.progress t) = false) (chunks : List Chunk) :
    (sessionEvents chunks).filter p = [] := by
  rw [List.filter_eq_nil_iff]
  intro a ha
  rcases mem_sessionEvents ha with ⟨s, d, rfl⟩ | ⟨t, rfl⟩ <;> simp [h1, h2]

/-- Sequence numbers in a slow-chunk line are at least the starting counter. -/
theorem slowChunk_seq_lower_bound : ∀ (chunks : List Chunk) (k t s d : Nat),
    Event.slowChunk s d ∈ (chunkRecords chunks k t).flatMap recordEvents → k ≤ s := by
  intro chunks
  induction chunks with
  | nil => intro k t s d h; simp [chunkRecords] at h
  | cons c rest ih =>
    intro k t s d h
    simp only [chunkRecords, List.flatMap_cons, List.mem_append] at h
    rcases h with h | h
    · rcases mem_recordEvents h with h1 | h1
      · simp at h1; omega
      · simp at h1
    · have := ih (k + 1) (t + c.size) s d h; omega

/-- The slow-chunk line for the chunk at position `i` (counter `k + i`) is
    present iff that chunk was slow. -/
theorem slow_iff_aux : ∀ (chunks : List Chunk) (k t : Nat) (i : Fin chunks.length),
    (Event.slowChunk (k + i.1) (chunks.get i).durationMs
        ∈ (chunkRecords chunks k t).flatMap recordEvents)
      ↔ SLOW_FETCH_THRESHOLD_MS ≤ (chunks.get i).durationMs := by
  intro chunks
  induction chunks with
  | nil => intro k t i; exact absurd i.2 (by simp)
  | cons c rest ih =>
    intro k t i
    rcases i with ⟨iv, hi⟩
    cases iv with
    | zero =>
      have hget : (c :: rest).get ⟨0, hi⟩ = c := rfl
      rw [hget, Nat.add_zero]
      simp only [chunkRecords, List.flatMap_cons, List.mem_append]
      constructor
      · rintro (h | h)
        · exact ((slowChunk_mem_recordEvents _ _ _).mp h).2.2
        · exfalso
          have hb := slowChunk_seq_lower_bound rest (k + 1) (t + c.size) k c.durationMs h
          omega
      · intro h
        exact Or.inl ((slowChunk_mem_recordEvents _ _ _).mpr ⟨rfl, rfl, h⟩)
    | succ j =>
      have hj : j < rest.length := by simpa using hi
      have key := ih (k + 1) (t + c.size) ⟨j, hj⟩
      have hget : (c :: rest).get ⟨j + 1, hi⟩ = rest.get ⟨j, hj⟩ := rfl
      rw [hget]
      have hseq : k + (j + 1) = (k + 1) + j := by omega
      rw [hseq]
      simp only [chunkRecords, List.flatMap_cons, List.mem_append]
      constructor
      · rintro (h | h)
        · exfalso
          have h1 := ((slowChunk_mem_recordEvents _ _ _).mp h).1
          have h2 : (k + 1) + j = k := h1
          omega
        · exact key.mp h
      · intro h
        exact Or.inr (key.mpr h)

/-- Sequence numbers and running totals of the chunk loop, for any starting
    counter and total. -/
theorem chunkRecords_map_pair : ∀ (chunks : List Chunk) (k t : Nat),
    (chunkRecords chunks k t).map (fun r => (r.seq, r.totalAfter))
      = (List.range chunks.length).map
          (fun i => (k + i, t + (((chunks.take (i + 1)).map (fun c => c.size)).sum))) := by
  intro chunks
  induction chunks with
  | nil => intro k t; simp [chunkRecords]
  | cons c rest ih =>
    intro k t
    simp only [chunkRecords, List.map_cons, List.length_cons, List.range_succ_eq_map,
      ih (k + 1) (t + c.size), List.map_map]
    refine List.cons_eq_cons.mpr ⟨?_, ?_⟩
    · simp
    · apply List.map_congr_left
      intro i _
      simp only [Function.comp_apply, Nat.succ_eq_add_one, List.take_succ_cons, List.map_cons,
        List.sum_cons, Prod.mk.injEq]
      omega

/-- The running byte total is the fold the source performs. -/
theorem foldl_size_eq_sum : ∀ (l : List Chunk) (t : Nat),
    l.foldl (fun total c => total + c.size) t = t + (l.map (fun c => c.size)).sum := by
  intro l
  induction l with
  | nil => intro t; simp
  | cons c rest ih => intro t; simp [ih, Nat.add_assoc]

/-! Helper lemmas unfolding one iteration of stream_repeatedly. -/

theorem stream_repeatedly_cons_authError {w : IterWorld} {e : PyError}
    (camera : String) (rest : List IterWorld) (k : Nat)
    (h : get_auth_key w.auth = Except.error e) :
    stream_repeatedly camera (w :: rest) k = ([], Outcome.raised e) := by
  simp [stream_repeatedly, h]

theorem stream_repeatedly_cons_noneKey {w : IterWorld}
    (camera : String) (rest : List IterWorld) (k : Nat)
    (h : get_auth_key w.auth = Except.ok none) :
    stream_repeatedly camera (w :: rest) k
      = ([Event.couldNotGetAuthKey], Outcome.finished) := by
  simp [stream_repeatedly, h]

theorem stream_repeatedly_cons_playbackFail {w : IterWorld} {tok : String}
    (camera : String) (rest : List IterWorld) (k : Nat)
    (h : get_auth_key w.auth = Except.ok (some tok)) (hs : w.playbackStatus ≠ 200) :
    stream_repeatedly camera (w :: rest) k
      = ([Event.playbackAttempt camera],
         Outcome.raised (PyError.playbackFailed camera w.playbackStatus)) := by
  simp [stream_repeatedly, h, make_playback_request, hs]

theorem stream_repeatedly_cons_midErr {w : IterWorld} {tok : String}
    (camera : String) (rest : List IterWorld) (k : Nat)
    (h : get_auth_key w.auth = Except.ok (some tok)) (hs : w.playbackStatus = 200)
    (hm : w.midStreamError = true) :
    stream_repeatedly camera (w :: rest) k
      = (Event.playbackAttempt camera :: Event.streamOpen camera :: sessionEvents w.chunks,
         Outcome.raised PyError.transportError) := by
  simp [stream_repeatedly, h, make_playback_request, hs, hm]

theorem stream_repeatedly_cons_clean {w : IterWorld} {tok : String}
    (camera : String) (rest : List IterWorld) (k : Nat)
    (h : get_auth_key w.auth = Except.ok (some tok)) (hs : w.playbackStatus = 200)
    (hm : w.midStreamError = false) :
    stream_repeatedly camera (w :: rest) k
      = (Event.playbackAttempt camera :: Event.streamOpen camera ::
          (sessionEvents w.chunks ++ Event.sessionSummary (sessionFinalTotal w.chunks)
            :: Event.streamClose :: (stream_repeatedly camera rest 0).1),
         (stream_repeatedly camera rest 0).2) := by
  simp [stream_repeatedly, h, make_playback_request, hs, hm]

/-! Claim theorems. -/

/-- Claim C1 (code bug evidence): with a successful credential exchange and a
playback open failing with HTTP 503, stream_repeatedly raises the playback
failure immediately: no backoff sleep is ever performed and no retry happens,
because make_playback_request raises instead of returning None. -/
theorem c1_first_open_failure_raises :
    stream_repeatedly "front"
      [{ auth := { authenticateStatus := 200, authorizeStatus := 200,
                   authorizeCookies := [("auth_key", "tok")] },
         playbackStatus := 503, chunks := [], midStreamError := false }] 0
    = ([Event.playbackAttempt "front"],
       Outcome.raised (PyError.playbackFailed "front" 503)) := by
  decide

/-- Claim C5: within one streaming session, a slow-chunk diagnostic naming the
chunk sequence number and duration is emitted for a chunk iff its measured
inter-arrival duration is at least 5000 ms; and the concrete scenario with
chunk sizes [10240, 10240, 5000] and durations [10, 6000, 20] produces exactly
one slow-chunk diagnostic (for chunk 2) and a final summary with 25480 total
bytes. -/
theorem c5_slow_chunk_iff :
    (∀ (chunks : List Chunk) (i : Fin chunks.length),
        (Event.slowChunk (i.1 + 1) (chunks.get i).durationMs ∈ sessionEvents chunks
          ↔ SLOW_FETCH_THRESHOLD_MS ≤ (chunks.get i).durationMs))
    ∧ sessionEvents [⟨10240, 10⟩, ⟨10240, 6000⟩, ⟨5000, 20⟩] = [Event.slowChunk 2 6000]
    ∧ stream_repeatedly "front"
        [{ auth := { authenticateStatus := 200, authorizeStatus := 200,
                     authorizeCookies := [("auth_key", "tok")] },
           playbackStatus := 200,
           chunks := [⟨10240, 10⟩, ⟨10240, 6000⟩, ⟨5000, 20⟩], midStreamError := false }] 0
      = ([Event.playbackAttempt "front", Event.streamOpen "front", Event.slowChunk 2 6000,
          Event.sessionSummary 25480, Event.streamClose], Outcome.running) := by
    refine ⟨?_, by decide, by decide⟩
    intro chunks i
    have h := slow_iff_aux chunks 1 0 i
    rw [Nat.add_comm 1 i.1] at h
    exact h

/-- Claim C6: within one session the sequence numbers assigned to consumed
chunks are exactly 1, 2, 3, ... with no gaps or repeats, the running total
after the chunk at position i equals the sum of the first i+1 chunk sizes, and
the final total equals the sum of all chunk sizes. -/
theorem c6_sequence_numbers_and_totals (chunks : List Chunk) :
    ((chunkRecords chunks 1 0).map (fun r => r.seq) = List.range' 1 chunks.length)
    ∧ ((chunkRecords chunks 1 0).map (fun r => (r.seq, r.totalAfter))
        = (List.range chunks.length).map
            (fun i => (i + 1, ((chunks.take (i + 1)).map (fun c => c.size)).sum)))
    ∧ sessionFinalTotal chunks = (chunks.map (fun c => c.size)).sum := by
  have hpair := chunkRecords_map_pair chunks 1 0
  have hpair' : (chunkRecords chunks 1 0).map (fun r => (r.seq, r.totalAfter))
      = (List.range chunks.length).map
          (fun i => (i + 1, ((chunks.take (i + 1)).map (fun c => c.size)).sum)) := by
    rw [hpair]
    apply List.map_congr_left
    intro i _
    simp only [Prod.mk.injEq]
    omega
  refine ⟨?_, hpair', ?_⟩
  · calc (chunkRecords chunks 1 0).map (fun r => r.seq)
        = ((chunkRecords chunks 1 0).map (fun r => (r.seq, r.totalAfter))).map Prod.fst := by
          simp [List.map_map, Function.comp_def]
      _ = ((List.range chunks.length).map
            (fun i => (i + 1, ((chunks.take (i + 1)).map (fun c => c.size)).sum))).map
              Prod.fst := by rw [hpair']
      _ = (List.range chunks.length).map (fun i => i + 1) := by
          simp [List.map_map, Function.comp_def]
      _ = List.range' 1 chunks.length := by
          rw [List.range'_eq_map_range]
          apply List.map_congr_left
          intro i _
          omega
  · unfold sessionFinalTotal
    simpa using foldl_size_eq_sum chunks 0

/-- Claim C8: get_auth_key raises an error carrying the HTTP status whenever
authenticate or authorize returns a non-200 status; when both return 200 it
returns the auth_key cookie without raising: None when the cookie is absent,
and exactly the (non-empty) cookie value when present. -/
theorem c8_get_auth_key_contract (w : AuthWorld) :
    (w.authenticateStatus ≠ 200 →
      get_auth_key w = Except.error (PyError.authenticationFailed w.authenticateStatus))
    ∧ (w.authenticateStatus = 200 → w.authorizeStatus ≠ 200 →
      get_auth_key w = Except.error (PyError.authorizationFailed w.authorizeStatus))
    ∧ (w.authenticateStatus = 200 → w.authorizeStatus = 200 →
      get_auth_key w = Except.ok (cookiesGet w.authorizeCookies "auth_key"))
    ∧ (w.authenticateStatus = 200 → w.authorizeStatus = 200 →
        cookiesGet w.authorizeCookies "auth_key" = none →
      get_auth_key w = Except.ok none)
    ∧ (∀ t, w.authenticateStatus = 200 → w.authorizeStatus = 200 →
        cookiesGet w.authorizeCookies "auth_key" = some t →
      get_auth_key w = Except.ok (some t)) := by
  refine ⟨?_, ?_, ?_, ?_, ?_⟩
  · intro h; simp [get_auth_key, h]
  · intro h1 h2; simp [get_auth_key, h1, h2]
  · intro h1 h2; simp [get_auth_key, h1, h2]
  · intro h1 h2 h3; simp [get_auth_key, h1, h2, h3]
  · intro t h1 h2 h3; simp [get_auth_key, h1, h2, h3]

/-- Witness for claim C8 at concrete inputs: a failed authenticate carries its
status, a missing cookie yields ok-None, a present cookie is returned as is. -/
theorem c8_get_auth_key_contract_witness :
    get_auth_key { authenticateStatus := 500, authorizeStatus := 200, authorizeCookies := [] }
        = Except.error (PyError.authenticationFailed 500)
    ∧ get_auth_key { authenticateStatus := 200, authorizeStatus := 200, authorizeCookies := [] }
        = Except.ok none
    ∧ get_auth_key { authenticateStatus := 200, authorizeStatus := 200,
                     authorizeCookies := [("auth_key", "tok")] }
        = Except.ok (some "tok") :=
  ⟨(c8_get_auth_key_contract _).1 (by decide),
   (c8_get_auth_key_contract _).2.2.2.1 (by decide) (by decide) (by decide),
   (c8_get_auth_key_contract _).2.2.2.2 "tok" (by decide) (by decide) (by decide)⟩

/-- Claim C10: make_playback_request either raises (non-200 status) or returns
a non-None stream handle, so the None branch of stream_repeatedly is
unreachable: no trace of stream_repeatedly ever contains a backoff sleep. -/
theorem c10_playback_never_none :
    (∀ (camera : String) (status : Nat) (s : Stream),
        make_playback_request camera status s =
          if status = 200 then Except.ok (some s)
          else Except.error (PyError.playbackFailed camera status))
    ∧ (∀ (camera : String) (iters : List IterWorld) (k : Nat),
        ((stream_repeatedly camera iters k).1.filter isBackoffSleep) = []) := by
  constructor
  · intro camera status s
    by_cases h : status = 200 <;> simp [make_playback_request, h]
  · intro camera iters
    induction iters with
    | nil => intro k; simp [stream_repeatedly]
    | cons w rest ih =>
      intro k
      rcases hga : get_auth_key w.auth with e | key
      · rw [stream_repeatedly_cons_authError camera rest k hga]; simp
      · rcases key with _ | tok
        · rw [stream_repeatedly_cons_noneKey camera rest k hga]; simp [isBackoffSleep]
        · by_cases hs : w.playbackStatus = 200
          · cases hm : w.midStreamError with
            | true =>
              rw [stream_repeatedly_cons_midErr camera rest k hga hs hm]
              simp [isBackoffSleep,
                sessionEvents_filter_eq_nil isBackoffSleep (by intros; rfl) (by intros; rfl)]
            | false =>
              rw [stream_repeatedly_cons_clean camera rest k hga hs hm]
              simp [isBackoffSleep,
                sessionEvents_filter_eq_nil isBackoffSleep (by intros; rfl) (by intros; rfl),
                ih 0]
          · rw [stream_repeatedly_cons_playbackFail camera rest k hga hs]
            simp [isBackoffSleep]

/-- Claim C2 counterexample: a mid-stream I/O failure is not treated like a
clean end-of-stream: the TransportError propagates out of stream_repeatedly
(the loop terminates raised instead of re-authenticating). -/
theorem c2_counterexample_transport_error_propagates :
    stream_repeatedly "front"
      [{ auth := { authenticateStatus := 200, authorizeStatus := 200,
                   authorizeCookies := [("auth_key", "tok")] },
         playbackStatus := 200, chunks := [⟨100, 10⟩], midStreamError := true }] 0
    = ([Event.playbackAttempt "front", Event.streamOpen "front"],
       Outcome.raised PyError.transportError) := by
  decide

/-- Claim C2 (amended): stream_repeatedly catches neither failure: after any
number of fully successful iterations, a stream-open failure propagates as a
playback error and a mid-stream I/O failure propagates as a transport error;
neither is converted into backoff-and-retry. -/
theorem c2_amended_failures_propagate (camera : String) (pre : List IterWorld)
    (w : IterWorld) (rest : List IterWorld) (tok : String)
    (hpre : ∀ x ∈ pre, CleanIter x)
    (hauth : get_auth_key w.auth = Except.ok (some tok))
    (hfail : w.playbackStatus ≠ 200 ∨ w.midStreamError = true) :
    (stream_repeatedly camera (pre ++ w :: rest) 0).2
      = Outcome.raised
          (if w.playbackStatus = 200 then PyError.transportError
           else PyError.playbackFailed camera w.playbackStatus) := by
  induction pre with
  | nil =>
    simp only [List.nil_append]
    by_cases hs : w.playbackStatus = 200
    · have hm : w.midStreamError = true := by
        rcases hfail with h | h
        · exact absurd hs h
        · exact h
      rw [stream_repeatedly_cons_midErr camera rest 0 hauth hs hm]
      simp [hs]
    · rw [stream_repeatedly_cons_playbackFail camera rest 0 hauth hs]
      simp [hs]
  | cons x xs ih =>
    obtain ⟨h1, h2, h3, h4, h5⟩ := hpre x (by simp)
    obtain ⟨t, ht⟩ := Option.isSome_iff_exists.mp h3
    have hga : get_auth_key x.auth = Except.ok (some t) := by
      simp [get_auth_key, h1, h2, ht]
    rw [List.cons_append,
      stream_repeatedly_cons_clean camera (xs ++ w :: rest) 0 hga h4 h5]
    exact ih (fun y hy => hpre y (by simp [hy]))

/-- Witness for the amended claim C2: one clean iteration followed by an open
failure with HTTP 500 ends the loop raising the playback failure. -/
theorem c2_amended_failures_propagate_witness :
    (stream_repeatedly "front"
      [{ auth := { authenticateStatus := 200, authorizeStatus := 200,
                   authorizeCookies := [("auth_key", "tok")] },
         playbackStatus := 200, chunks := [], midStreamError := false },
       { auth := { authenticateStatus := 200, authorizeStatus := 200,
                   authorizeCookies := [("auth_key", "tok")] },
         playbackStatus := 500, chunks := [], midStreamError := false }] 0).2
      = Outcome.raised (PyError.playbackFailed "front" 500) := by
  have h := c2_amended_failures_propagate "front"
      [{ auth := { authenticateStatus := 200, authorizeStatus := 200,
                   authorizeCookies := [("auth_key", "tok")] },
         playbackStatus := 200, chunks := [], midStreamError := false }]
      { auth := { authenticateStatus := 200, authorizeStatus := 200,
                  authorizeCookies := [("auth_key", "tok")] },
        playbackStatus := 500, chunks := [], midStreamError := false }
      [] "tok" (by decide) (by decide) (by decide)
  simpa using h

/-- The first camera of a round always gets a playback request. -/
theorem attempt_mem_runRound_head (w : LatencyWorld) (i : Nat) (c : String)
    (cs : List String) (lt : List (String × List ℚ)) :
    Event.playbackAttempt c ∈ (runRound w i (c :: cs) lt).1 := by
  by_cases h : w.openStatus i c ≠ 200
  · simp [runRound, h]
  · simp [runRound, h]

/-- Claim C3 counterexample: with an authorize response that has no auth_key
cookie (null token), test_latency still issues a playback request: it does
not abort before the first camera. -/
theorem c3_counterexample_profiler_requests_with_null_token :
    Event.playbackAttempt "front" ∈
      (test_latency
        { auth := { authenticateStatus := 200, authorizeStatus := 200,
                    authorizeCookies := [] },
          cameras := ["front"],
          delay_between_runs_seconds := 60,
          lat := fun _ _ => 0,
          openStatus := fun _ _ => 200 } 1).1 := by
  decide

/-- Claim C3 (amended): on a null token, stream_repeatedly prints and returns
immediately without any playback request; test_latency performs no such
check and issues a playback request for the first camera regardless. -/
theorem c3_amended_null_token_behaviour :
    (∀ (camera : String) (w : IterWorld) (rest : List IterWorld) (k : Nat),
        get_auth_key w.auth = Except.ok none →
        stream_repeatedly camera (w :: rest) k
          = ([Event.couldNotGetAuthKey], Outcome.finished))
    ∧ (∀ (w : LatencyWorld) (runs : Nat) (c : String) (cs : List String),
        get_auth_key w.auth = Except.ok none → w.cameras = c :: cs → 0 < runs →
        Event.playbackAttempt c ∈ (test_latency w runs).1) := by
  constructor
  · intro camera w rest k h
    exact stream_repeatedly_cons_noneKey camera rest k h
  · intro w runs c cs hga hcam hruns
    obtain ⟨m, rfl⟩ : ∃ m, runs = m + 1 := ⟨runs - 1, by omega⟩
    simp only [test_latency, hga]
    rw [List.range_succ_eq_map, hcam]
    simp only [runRounds]
    rw [hcam]
    have hmem := attempt_mem_runRound_head w 0 c cs
      ((c :: cs).map (fun cam => (cam, ([] : List ℚ))))
    rcases hr : runRound w 0 (c :: cs) ((c :: cs).map (fun cam => (cam, ([] : List ℚ)))) with
      ⟨events, res⟩
    rw [hr] at hmem
    simp only at hmem
    rcases res with e | lt2
    · simp [hmem]
    · rcases hres : runRounds w ((List.range m).map Nat.succ) lt2 with ⟨events2, res2⟩
      rcases res2 with e2 | ltf <;> simp [hres, hmem]

/-- Witness for the amended claim C3: with a cookie-less authorize response,
stream_repeatedly stops immediately with no playback attempt, while
test_latency issues a playback attempt for the camera front. -/
theorem c3_amended_null_token_behaviour_witness :
    stream_repeatedly "front"
        [{ auth := { authenticateStatus := 200, authorizeStatus := 200,
                     authorizeCookies := [] },
           playbackStatus := 200, chunks := [], midStreamError := false }] 5
      = ([Event.couldNotGetAuthKey], Outcome.finished)
    ∧ Event.playbackAttempt "front" ∈
        (test_latency
          { auth := { authenticateStatus := 200, authorizeStatus := 200,
                      authorizeCookies := [] },
            cameras := ["front"],
            delay_between_runs_seconds := 60,
            lat := fun _ _ => 0,
            openStatus := fun _ _ => 200 } 1).1 :=
  ⟨c3_amended_null_token_behaviour.1 "front" _ [] 5 (by decide),
   c3_amended_null_token_behaviour.2 _ 1 "front" [] (by decide) rfl (by decide)⟩

/-- Claim C9 counterexample: a mid-stream I/O error exits the chunk loop by
raising before close() runs: the stream is opened but never closed. -/
theorem c9_counterexample_midstream_error_leaks_stream :
    (((stream_repeatedly "cam"
        [{ auth := { authenticateStatus := 200, authorizeStatus := 200,
                     authorizeCookies := [("auth_key", "tok")] },
           playbackStatus := 200, chunks := [⟨10, 5⟩], midStreamError := true }] 0).1.filter
          isStreamOpen).length = 1)
    ∧ (((stream_repeatedly "cam"
        [{ auth := { authenticateStatus := 200, authorizeStatus := 200,
                     authorizeCookies := [("auth_key", "tok")] },
           playbackStatus := 200, chunks := [⟨10, 5⟩], midStreamError := true }] 0).1.filter
          isStreamClose).length = 0) := by
  decide

/-- Opens and closes balance over one latency round, even when it aborts. -/
theorem runRound_open_close_balance (w : LatencyWorld) (i : Nat) :
    ∀ (cams : List String) (lt : List (String × List ℚ)),
    ((runRound w i cams lt).1.filter isStreamOpen).length
      = ((runRound w i cams lt).1.filter isStreamClose).length := by
  intro cams
  induction cams with
  | nil => intro lt; simp [runRound]
  | cons c cs ih =>
    intro lt
    by_cases h : w.openStatus i c ≠ 200
    · simp [runRound, h, isStreamOpen, isStreamClose]
    · simp [runRound, h, isStreamOpen, isStreamClose, ih]

/-- Opens and closes balance over all latency rounds. -/
theorem runRounds_open_close_balance (w : LatencyWorld) :
    ∀ (is : List Nat) (lt : List (String × List ℚ)),
    ((runRounds w is lt).1.filter isStreamOpen).length
      = ((runRounds w is lt).1.filter isStreamClose).length := by
  intro is
  induction is with
  | nil => intro lt; simp [runRounds]
  | cons i rest ih =>
    intro lt
    simp only [runRounds]
    rcases hr : runRound w i w.cameras lt with ⟨events, res⟩
    have hbal := runRound_open_close_balance w i w.cameras lt
    rw [hr] at hbal
    simp only at hbal
    rcases res with e | lt2
    · simp [List.filter_append, isStreamOpen, isStreamClose, hbal]
      by_cases hi : 0 < i <;> simp [hi, isStreamOpen, isStreamClose, hbal]
    · simp only
      by_cases hi : 0 < i <;>
        simp [hi, List.filter_append, isStreamOpen, isStreamClose, hbal, ih lt2]

/-- Claim C9 (amended): every opened stream is matched by exactly one close on
the paths where chunk iteration and the 1-byte read complete without raising:
if no session raises mid-stream, the numbers of opens and closes in the
stream_repeatedly trace agree, and they always agree in the test_latency
trace; but a mid-stream error leaves the open unmatched (see the
counterexample). -/
theorem c9_amended_close_on_clean_paths :
    (∀ (camera : String) (iters : List IterWorld) (k : Nat),
        (∀ x ∈ iters, x.midStreamError = false) →
        ((stream_repeatedly camera iters k).1.filter isStreamOpen).length
          = ((stream_repeatedly camera iters k).1.filter isStreamClose).length)
    ∧ (∀ (w : LatencyWorld) (runs : Nat),
        ((test_latency w runs).1.filter isStreamOpen).length
          = ((test_latency w runs).1.filter isStreamClose).length) := by
  constructor
  · intro camera iters
    induction iters with
    | nil => intro k h; simp [stream_repeatedly]
    | cons w rest ih =>
      intro k h
      have hw : w.midStreamError = false := h w (by simp)
      have hrest : ∀ x ∈ rest, x.midStreamError = false := fun x hx => h x (by simp [hx])
      rcases hga : get_auth_key w.auth with e | key
      · rw [stream_repeatedly_cons_authError camera rest k hga]; simp
      · rcases key with _ | tok
        · rw [stream_repeatedly_cons_noneKey camera rest k hga]
          simp [isStreamOpen, isStreamClose]
        · by_cases hs : w.playbackStatus = 200
          · rw [stream_repeatedly_cons_clean camera rest k hga hs hw]
            have hopen := sessionEvents_filter_eq_nil isStreamOpen
              (by intros; rfl) (by intros; rfl) w.chunks
            have hclose := sessionEvents_filter_eq_nil isStreamClose
              (by intros; rfl) (by intros; rfl) w.chunks
            simp [List.filter_append, isStreamOpen, isStreamClose, hopen, hclose,
              ih 0 hrest]
          · rw [stream_repeatedly_cons_playbackFail camera rest k hga hs]
            simp [isStreamOpen, isStreamClose]
  · intro w runs
    rcases hga : get_auth_key w.auth with e | key
    · simp [test_latency, hga]
    · simp only [test_latency, hga]
      rcases hr : runRounds w (List.range runs)
          (w.cameras.map (fun c => (c, ([] : List ℚ)))) with ⟨events, res⟩
      have hbal := runRounds_open_close_balance w (List.range runs)
        (w.cameras.map (fun c => (c, ([] : List ℚ))))
      rw [hr] at hbal
      simp only at hbal
      rcases res with e | lt <;> simp [hbal]

/-- Witness for the amended claim C9: a clean single-session run balances its
one open with its one close. -/
theorem c9_amended_close_on_clean_paths_witness :
    ((stream_repeatedly "cam"
        [{ auth := { authenticateStatus := 200, authorizeStatus := 200,
                     authorizeCookies := [("auth_key", "tok")] },
           playbackStatus := 200, chunks := [⟨10, 5⟩], midStreamError := false }] 0).1.filter
          isStreamOpen).length
      = ((stream_repeatedly "cam"
        [{ auth := { authenticateStatus := 200, authorizeStatus := 200,
                     authorizeCookies := [("auth_key", "tok")] },
           playbackStatus := 200, chunks := [⟨10, 5⟩], midStreamError := false }] 0).1.filter
          isStreamClose).length :=
  c9_amended_close_on_clean_paths.1 "cam"
    [{ auth := { authenticateStatus := 200, authorizeStatus := 200,
                 authorizeCookies := [("auth_key", "tok")] },
       playbackStatus := 200, chunks := [⟨10, 5⟩], midStreamError := false }] 0 (by decide)

/-! Helper lemmas for the latency report computation. -/

/-- Python int() truncation toward zero is monotone. -/
theorem pyInt_mono {q r : ℚ} (h : q ≤ r) : pyInt q ≤ pyInt r := by
  unfold pyInt
  by_cases hq : 0 ≤ q
  · have hr : 0 ≤ r := le_trans hq h
    simp only [hq, hr, if_true]
    exact Int.floor_le_floor h
  · by_cases hr : 0 ≤ r
    · simp only [hq, hr, if_true, if_false]
      have h1 : ⌈q⌉ ≤ 0 := Int.ceil_le.mpr (by push_cast; linarith)
      have h2 : (0 : ℤ) ≤ ⌊r⌋ := Int.floor_nonneg.mpr hr
      omega
    · simp only [hq, hr, if_false]
      exact Int.ceil_le_ceil h

/-- Entries of a sorted list of rationals are monotone in the index. -/
theorem getD_le_getD_of_sorted {s : List ℚ} (hs : s.Sorted (· ≤ ·)) {i j : Nat}
    (hij : i ≤ j) (hj : j < s.length) :
    s.getD i 0 ≤ s.getD j 0 := by
  have hi : i < s.length := lt_of_le_of_lt hij hj
  rw [List.getD_eq_getElem?_getD, List.getD_eq_getElem?_getD,
    List.getElem?_eq_getElem hi, List.getElem?_eq_getElem hj]
  simp only [Option.getD_some]
  have := hs.rel_get_of_le (a := ⟨i, hi⟩) (b := ⟨j, hj⟩) (Fin.mk_le_mk.mpr hij)
  simpa using this

/-- The Python median of a sorted non-empty list lies between its first and
its last element. -/
theorem median_bounds (s : List ℚ) (hs : s.Sorted (· ≤ ·)) (hne : s ≠ []) :
    s.getD 0 0 ≤ median s ∧ median s ≤ (s.getLast?).getD 0 := by
  have hlen : 0 < s.length := List.length_pos.mpr hne
  have hins : List.insertionSort (· ≤ ·) s = s := hs.insertionSort_eq
  have hlast : (s.getLast?).getD 0 = s.getD (s.length - 1) 0 := by
    rw [List.getLast?_eq_getElem?, List.getD_eq_getElem?_getD]
  unfold median
  rw [hins]
  by_cases hpar : s.length % 2 = 1
  · rw [if_pos hpar]
    refine ⟨getD_le_getD_of_sorted hs (Nat.zero_le _) (by omega), ?_⟩
    rw [hlast]
    exact getD_le_getD_of_sorted hs (by omega) (by omega)
  · rw [if_neg hpar]
    have h2 : s.length % 2 = 0 := by omega
    have hge2 : 2 ≤ s.length := by omega
    constructor
    · have b1 := getD_le_getD_of_sorted hs (Nat.zero_le (s.length / 2 - 1)) (by omega)
      have b2 := getD_le_getD_of_sorted hs (Nat.zero_le (s.length / 2)) (by omega)
      linarith
    · rw [hlast]
      have b1 := getD_le_getD_of_sorted hs
        (show s.length / 2 - 1 ≤ s.length - 1 by omega) (by omega)
      have b2 := getD_le_getD_of_sorted hs
        (show s.length / 2 ≤ s.length - 1 by omega) (by omega)
      linarith

/-- Claim C7: for a non-empty sample list the reported values satisfy
min ≤ median ≤ max, and when the list holds one sample per run the reported
avg is the truncated arithmetic mean of the samples, in milliseconds. -/
theorem c7_report_invariants (runs : Nat) (camera : String) (times : List ℚ)
    (hne : times ≠ []) (hlen : times.length = runs) :
    ((reportFor runs camera times).minMs ≤ (reportFor runs camera times).medianMs
      ∧ (reportFor runs camera times).medianMs ≤ (reportFor runs camera times).maxMs)
    ∧ (reportFor runs camera times).avgMs
        = pyInt ((times.sum / (times.length : ℚ)) * 1000) := by
  have hsorted : (List.insertionSort (· ≤ ·) times).Sorted (· ≤ ·) :=
    List.sorted_insertionSort _ _
  have hperm := List.perm_insertionSort (· ≤ ·) times
  have hnesort : List.insertionSort (· ≤ ·) times ≠ [] := by
    intro hcon
    apply hne
    apply List.eq_nil_of_length_eq_zero
    have := hperm.length_eq
    rw [hcon] at this
    simpa using this.symm
  obtain ⟨hmin, hmax⟩ := median_bounds _ hsorted hnesort
  refine ⟨⟨?_, ?_⟩, ?_⟩
  · simp only [reportFor]
    exact pyInt_mono (mul_le_mul_of_nonneg_right hmin (by norm_num))
  · simp only [reportFor]
    exact pyInt_mono (mul_le_mul_of_nonneg_right hmax (by norm_num))
  · simp only [reportFor]
    congr 1
    rw [hperm.sum_eq, hlen]
    ring

/-- Witness for claim C7 at the scenario samples [0.1s, 0.3s, 0.2s] with
three runs. -/
theorem c7_report_invariants_witness :
    ((reportFor 3 "front" [1/10, 3/10, 2/10]).minMs
        ≤ (reportFor 3 "front" [1/10, 3/10, 2/10]).medianMs
      ∧ (reportFor 3 "front" [1/10, 3/10, 2/10]).medianMs
        ≤ (reportFor 3 "front" [1/10, 3/10, 2/10]).maxMs)
    ∧ (reportFor 3 "front" [1/10, 3/10, 2/10]).avgMs
        = pyInt ((([1/10, 3/10, 2/10] : List ℚ).sum
            / ((([1/10, 3/10, 2/10] : List ℚ).length : Nat) : ℚ)) * 1000) :=
  c7_report_invariants 3 "front" [1/10, 3/10, 2/10] (by simp) (by rfl)

/-! Helper lemmas for the all-success run of test_latency. -/

/-- Appending a sample to the per-camera table changes exactly the matching
entries. -/
theorem appendSample_map (cameras : List String) (G : String → List ℚ)
    (x : String) (q : ℚ) :
    appendSample (cameras.map (fun c => (c, G c))) x q
      = cameras.map (fun c => (c, if c = x then G c ++ [q] else G c)) := by
  simp only [appendSample, List.map_map]
  apply List.map_congr_left
  intro c _
  by_cases h : c = x <;> simp [h]

/-- One all-success round: the events in camera order and the folded state. -/
theorem runRound_all_ok (w : LatencyWorld) (i : Nat) :
    ∀ (cams : List String), (∀ c ∈ cams, w.openStatus i c = 200) →
    ∀ (lt : List (String × List ℚ)),
    runRound w i cams lt
      = (cams.flatMap (fun c => [Event.playbackAttempt c, Event.streamOpen c,
          Event.latencyRead c, Event.streamClose]),
         Except.ok (cams.foldl (fun acc c => appendSample acc c (w.lat i c)) lt)) := by
  intro cams
  induction cams with
  | nil => intro _ lt; simp [runRound]
  | cons c cs ih =>
    intro h lt
    have hc : w.openStatus i c = 200 := h c (by simp)
    have hcs : ∀ x ∈ cs, w.openStatus i x = 200 := fun x hx => h x (by simp [hx])
    simp [runRound, hc, ih hcs]

/-- Folding sample-appends for a duplicate-free batch of cameras over a table
keyed by camera. -/
theorem foldl_appendSample (f : String → ℚ) :
    ∀ (cams : List String), cams.Nodup →
    ∀ (cameras : List String) (G : String → List ℚ),
    cams.foldl (fun acc c => appendSample acc c (f c)) (cameras.map (fun c => (c, G c)))
      = cameras.map (fun c => (c, if c ∈ cams then G c ++ [f c] else G c)) := by
  intro cams
  induction cams with
  | nil => intro _ cameras G; simp
  | cons x xs ih =>
    intro hnd cameras G
    have hx : x ∉ xs := (List.nodup_cons.mp hnd).1
    have hxs : xs.Nodup := (List.nodup_cons.mp hnd).2
    rw [List.foldl_cons, appendSample_map,
      ih hxs cameras (fun c => if c = x then G c ++ [f x] else G c)]
    apply List.map_congr_left
    intro c _
    by_cases hcx : c = x
    · subst hcx
      simp [hx]
    · by_cases hcm : c ∈ xs <;> simp [hcx, hcm]

/-- Unfolding of one successful round inside the outer loop. -/
theorem runRounds_cons_ok (w : LatencyWorld) (i : Nat) (rest : List Nat)
    (lt : List (String × List ℚ)) {events : List Event} {lt2 : List (String × List ℚ)}
    (h : runRound w i w.cameras lt = (events, Except.ok lt2)) :
    runRounds w (i :: rest) lt
      = ((if 0 < i then [Event.sleepBetweenRuns w.delay_between_runs_seconds] else [])
          ++ events ++ (runRounds w rest lt2).1,
         (runRounds w rest lt2).2) := by
  simp only [runRounds, h]

/-- All-success run of all rounds: events in round-major, camera-minor order
and one appended sample per camera per round. -/
theorem runRounds_all_ok (w : LatencyWorld) (hnd : w.cameras.Nodup) :
    ∀ (is : List Nat), (∀ i ∈ is, ∀ c ∈ w.cameras, w.openStatus i c = 200) →
    ∀ (G : String → List ℚ),
    runRounds w is (w.cameras.map (fun c => (c, G c)))
      = (is.flatMap (fun i =>
            (if 0 < i then [Event.sleepBetweenRuns w.delay_between_runs_seconds] else [])
              ++ w.cameras.flatMap (fun c => [Event.playbackAttempt c, Event.streamOpen c,
                   Event.latencyRead c, Event.streamClose])),
         Except.ok (w.cameras.map (fun c => (c, G c ++ is.map (fun i => w.lat i c))))) := by
  intro is
  induction is with
  | nil =>
    intro _ G
    simp [runRounds]
  | cons i rest ih =>
    intro h G
    have hi : ∀ c ∈ w.cameras, w.openStatus i c = 200 := h i (by simp)
    have hrest : ∀ j ∈ rest, ∀ c ∈ w.cameras, w.openStatus j c = 200 :=
      fun j hj => h j (by simp [hj])
    have hr := runRound_all_ok w i w.cameras hi (w.cameras.map (fun c => (c, G c)))
    rw [foldl_appendSample (fun c => w.lat i c) w.cameras hnd w.cameras G] at hr
    have hstate : w.cameras.map (fun c => (c, if c ∈ w.cameras then G c ++ [w.lat i c] else G c))
        = w.cameras.map (fun c => (c, G c ++ [w.lat i c])) := by
      apply List.map_congr_left
      intro c hc
      simp [hc]
    rw [hstate] at hr
    rw [runRounds_cons_ok w i rest _ hr, ih hrest (fun c => G c ++ [w.lat i c])]
    refine Prod.ext ?_ ?_
    · simp [List.flatMap_cons, List.append_assoc]
    · simp only [List.flatMap_cons, List.map_cons]
      apply congrArg
      apply List.map_congr_left
      intro c _
      simp

/-- The latency world of end-to-end scenario 1: one camera, three runs with
first-byte latencies 0.1s, 0.3s, 0.2s. -/
def scenarioWorld : LatencyWorld :=
  { auth := { authenticateStatus := 200, authorizeStatus := 200,
              authorizeCookies := [("auth_key", "tok")] },
    cameras := ["front"],
    delay_between_runs_seconds := 60,
    lat := fun i _ => if i = 0 then 1/10 else if i = 1 then 3/10 else 2/10,
    openStatus := fun _ _ => 200 }

/-- Claim C4: when authentication succeeds and every playback attempt
succeeds over a duplicate-free non-empty registry, test_latency records
exactly R samples per camera (one per round, in round-major camera-minor
order: the playback attempts in the trace are R copies of the registry in
order), reports per camera on those samples, and the reported avg for any
sample list is the truncation of sum(samples)*1000/R; concretely, runs=3
with camera front and latencies [0.1s, 0.3s, 0.2s] reports min=100,
median=200, avg=200, max=300. -/
theorem c4_latency_sampling :
    (∀ (w : LatencyWorld) (R : Nat), 0 < R → w.cameras ≠ [] → w.cameras.Nodup →
      w.auth.authenticateStatus = 200 → w.auth.authorizeStatus = 200 →
      (∀ (i : Nat) (c : String), c ∈ w.cameras → w.openStatus i c = 200) →
      ((test_latency w R).2
          = Except.ok (w.cameras.map (fun c =>
              reportFor R c ((List.range R).map (fun i => w.lat i c))))
        ∧ ((test_latency w R).1.filter isAttempt)
            = (List.range R).flatMap (fun _ => w.cameras.map Event.playbackAttempt)
        ∧ ∀ c, ((List.range R).map (fun i => w.lat i c)).length = R))
    ∧ (∀ (R : Nat) (c : String) (times : List ℚ),
        (reportFor R c times).avgMs = pyInt (times.sum * 1000 / (R : ℚ)))
    ∧ (test_latency scenarioWorld 3).2
        = Except.ok [{ camera := "front", minMs := 100, avgMs := 200,
                       medianMs := 200, maxMs := 300 }] := by
  have main : ∀ (w : LatencyWorld) (R : Nat), 0 < R → w.cameras ≠ [] → w.cameras.Nodup →
      w.auth.authenticateStatus = 200 → w.auth.authorizeStatus = 200 →
      (∀ (i : Nat) (c : String), c ∈ w.cameras → w.openStatus i c = 200) →
      ((test_latency w R).2
          = Except.ok (w.cameras.map (fun c =>
              reportFor R c ((List.range R).map (fun i => w.lat i c))))
        ∧ ((test_latency w R).1.filter isAttempt)
            = (List.range R).flatMap (fun _ => w.cameras.map Event.playbackAttempt)
        ∧ ∀ c, ((List.range R).map (fun i => w.lat i c)).length = R) := by
    intro w R _ _ hnd h200a h200b hopen
    have hok : get_auth_key w.auth = Except.ok (cookiesGet w.auth.authorizeCookies "auth_key") := by
      simp [get_auth_key, h200a, h200b]
    have hall : ∀ i ∈ List.range R, ∀ c ∈ w.cameras, w.openStatus i c = 200 :=
      fun i _ c hc => hopen i c hc
    have hrUn := runRounds_all_ok w hnd (List.range R) hall (fun _ => ([] : List ℚ))
    simp only [test_latency, hok, hrUn]
    refine ⟨?_, ?_, ?_⟩
    · simp [List.map_map, Function.comp_def]
    · rw [List.filter_flatMap]
      apply congrArg
      funext i
      rw [List.filter_append, List.filter_flatMap]
      have h1 : List.filter isAttempt
          (if 0 < i then [Event.sleepBetweenRuns w.delay_between_runs_seconds] else []) = [] := by
        by_cases hi : 0 < i <;> simp [hi, isAttempt]
      rw [h1, List.nil_append]
      have h2 : ∀ c, List.filter isAttempt [Event.playbackAttempt c, Event.streamOpen c,
          Event.latencyRead c, Event.streamClose] = [Event.playbackAttempt c] := by
        intro c
        simp [isAttempt, List.filter]
      simp only [h2]
      rw [← List.map_eq_flatMap]
    · intro c
      simp
  refine ⟨main, ?_, ?_⟩
  · intro R c times
    simp only [reportFor]
    congr 1
    rw [(List.perm_insertionSort (· ≤ ·) times).sum_eq]
  · obtain ⟨hres, -, -⟩ := main scenarioWorld 3 (by norm_num) (by simp [scenarioWorld])
      (by simp [scenarioWorld]) rfl rfl (fun i c _ => rfl)
    rw [hres]
    have hlat : (List.range 3).map (fun i => scenarioWorld.lat i "front")
        = [1/10, 3/10, 2/10] := by
      norm_num [List.range_succ, scenarioWorld]
    have hrep : reportFor 3 "front" ([1/10, 3/10, 2/10] : List ℚ)
        = { camera := "front", minMs := 100, avgMs := 200, medianMs := 200, maxMs := 300 } := by
      have hsort : List.insertionSort (fun a b => a ≤ b) ([1/10, 3/10, 2/10] : List ℚ)
          = [1/10, 2/10, 3/10] := by
        norm_num [List.insertionSort, List.orderedInsert]
      have hsort2 : List.insertionSort (fun a b => a ≤ b) ([1/10, 2/10, 3/10] : List ℚ)
          = [1/10, 2/10, 3/10] := by
        norm_num [List.insertionSort, List.orderedInsert]
      rw [reportFor, hsort]
      norm_num [median, hsort2, pyInt, List.getD, List.getLast?, List.getLast]
    simp only [scenarioWorld, List.map_cons, List.map_nil] at *
    rw [hlat, hrep]

/-- Witness for claim C4 at the scenario world: three runs over the single
camera front with every attempt succeeding. -/
theorem c4_latency_sampling_witness :
    (test_latency scenarioWorld 3).2
        = Except.ok (scenarioWorld.cameras.map (fun c =>
            reportFor 3 c ((List.range 3).map (fun i => scenarioWorld.lat i c))))
      ∧ ((test_latency scenarioWorld 3).1.filter isAttempt)
          = (List.range 3).flatMap (fun _ => scenarioWorld.cameras.map Event.playbackAttempt)
      ∧ ∀ c, ((List.range 3).map (fun i => scenarioWorld.lat i c)).length = 3 :=
  c4_latency_sampling.1 scenarioWorld 3 (by norm_num) (by simp [scenarioWorld])
    (by simp [scenarioWorld]) rfl rfl (fun i c _ => rfl)

end EagleEye
